import Mathlib

/-!
Verification of the tiny-regex-c engine (src/re.c): a shallow embedding of the
compiler (`re_compile` with its helpers `compileone`, `compileoneclc`,
`compilerange`, `compilequantifier`, `compilegreedy`, `compileatomic`) and the
matcher (`matchpattern`, `matchcount`, `matchone`, `matchoneclc`, the predicate
validators, and the drivers `re_rmatch` / `re_rmatchg`).

Modelling conventions:
* C strings (pattern and text) are lists of byte values; `cAt s i` models
  `s[i]` on a NUL-terminated string: positions at or past the end read 0.
  Bytes are modelled as unsigned values 0..255 (C `char` signedness is
  implementation defined; all claims use ASCII where the two agree).
* `errno` is threaded explicitly: match functions take the incoming errno
  flag (`true` = some error code is set) and return it alongside the number
  of characters eaten, exactly mirroring where re.c sets, clears, checks or
  merely preserves `errno`.
* `uint_fast8_t` quantities (quantifier bounds, repetition counts) are 8-bit
  on the library's reference platforms, so `UINT_FAST8_MAX` is 255 and the
  accumulations in `compilequantifier` are taken mod 256.
* `MAXTOKENS` and `CCLBUFLEN` live in re.h, which the repository's src tree
  does not contain; per the specification they are implementer-chosen
  compile-time constants, so they are explicit parameters `mt` / `cbl` here.
* Fields that re.c leaves uninitialized (e.g. `meta` of a `CCL_CHARRANGE`)
  are modelled as 0; no theorem depends on them.
* The matcher's backtracking recursion in re.c can diverge (the lazy
  backtracking loop does not always make progress), so `matchpattern` and the
  global driver take an explicit fuel parameter; `none` means the fuel ran
  out before re.c's recursion would have returned.
-/

namespace TinyRegexC

/-- Byte access into a NUL-terminated C string modelled as a byte list:
positions at or past the end of the list read the terminating 0. -/
def cAt (s : List Nat) (i : Nat) : Nat := s.getD i 0

/-- C `isspace` in the C locale (space, \t, \n, \v, \f, \r). -/
def isspaceB (c : Nat) : Bool := c == 32 || (9 ≤ c && c ≤ 13)

/-- C `isdigit`. -/
def isdigitB (c : Nat) : Bool := 48 ≤ c && c ≤ 57

/-- C `isalnum` in the C locale. -/
def isalnumB (c : Nat) : Bool :=
  isdigitB c || (65 ≤ c && c ≤ 90) || (97 ≤ c && c ≤ 122)

/-- re.c `iswordchar`: `isalnum(c) || c == '_'`. -/
def iswordchar (c : Nat) : Bool := isalnumB c || c == 95

/-- Token kinds of the compiled program (re.h's TOKEN_… enum). -/
inductive TokenType where
  | metabsl
  | metachar
  | charclass
  | invcharclass
  | char
  | nullterm
deriving DecidableEq, Repr

/-- Class-character kinds (re.h's CCL_… enum). -/
inductive CclType where
  | metabsl
  | charrange
  | nullterm
deriving DecidableEq, Repr

/-- One element of a compiled character class. -/
structure ClassChar where
  type : CclType
  meta : Nat
  first : Nat
  last : Nat
deriving DecidableEq, Repr

/-- One compiled regex token. The C `ccl` pointer into the shared class
buffer is modelled as the start index `ccl` into `Regex.cclbuf`. -/
structure Token where
  type : TokenType
  meta : Nat
  ch : Nat
  ccl : Nat
  quantifiermin : Nat
  quantifiermax : Nat
  greedy : Bool
  atomic : Bool
deriving DecidableEq, Repr

/-- A compiled regex: the token program and the class-character buffer. -/
structure Regex where
  tokens : List Token
  cclbuf : List ClassChar
deriving DecidableEq, Repr

/-- Error kinds re.c reports through errno: EINVAL (invalid pattern) and
ENOBUFS (program overflow). -/
inductive RErr where
  | einval
  | enobufs
deriving DecidableEq, Repr

/-- The END sentinel token as re_compile writes it (only its type matters). -/
def tokenEnd : Token := ⟨.nullterm, 0, 0, 0, 1, 1, true, false⟩

/-! ### Predicate validators

Each validator models one `match…` predicate function of re.c: `some n` means
success consuming `n` characters, `none` means it set errno (EINVAL). -/

/-- re.c `matchwhitespace`. -/
def matchwhitespace (t : List Nat) (i : Nat) : Option Nat :=
  if isspaceB (cAt t i) then some 1 else none

/-- re.c `matchnotwhitespace`. -/
def matchnotwhitespace (t : List Nat) (i : Nat) : Option Nat :=
  if isspaceB (cAt t i) then none else some 1

/-- re.c `matchdigit`. -/
def matchdigit (t : List Nat) (i : Nat) : Option Nat :=
  if isdigitB (cAt t i) then some 1 else none

/-- re.c `matchnotdigit`. -/
def matchnotdigit (t : List Nat) (i : Nat) : Option Nat :=
  if isdigitB (cAt t i) then none else some 1

/-- re.c `matchwordchar`. -/
def matchwordchar (t : List Nat) (i : Nat) : Option Nat :=
  if iswordchar (cAt t i) then some 1 else none

/-- re.c `matchnotwordchar`. -/
def matchnotwordchar (t : List Nat) (i : Nat) : Option Nat :=
  if iswordchar (cAt t i) then none else some 1

/-- re.c `matchnewline`: CRLF eats 2, lone LF eats 1. -/
def matchnewline (t : List Nat) (i : Nat) : Option Nat :=
  if cAt t i == 13 && cAt t (i+1) == 10 then some 2
  else if cAt t i == 10 then some 1
  else none

/-- re.c `matchwordboundary`: fails iff word-ness is equal across an interior
position, or position 0 does not start with a word character. -/
def matchwordboundary (t : List Nat) (i : Nat) : Option Nat :=
  if (0 < i ∧ iswordchar (cAt t (i-1)) = iswordchar (cAt t i)) ∨
     (i = 0 ∧ iswordchar (cAt t 0) = false) then none else some 0

/-- re.c `matchnotwordboundary`. -/
def matchnotwordboundary (t : List Nat) (i : Nat) : Option Nat :=
  if (0 < i ∧ iswordchar (cAt t (i-1)) ≠ iswordchar (cAt t i)) ∨
     (i = 0 ∧ iswordchar (cAt t 0) = true) then none else some 0

/-- re.c `matchstart`: succeeds (eating 0) iff `i = 0`. -/
def matchstart (_t : List Nat) (i : Nat) : Option Nat :=
  if i ≠ 0 then none else some 0

/-- re.c `matchend`: succeeds (eating 0) iff `text[i]` is the NUL. -/
def matchend (t : List Nat) (i : Nat) : Option Nat :=
  if cAt t i ≠ 0 then none else some 0

/-- re.c `matchany`: succeeds (eating 1) iff `text[i]` is not the NUL. -/
def matchany (t : List Nat) (i : Nat) : Option Nat :=
  if cAt t i = 0 then none else some 1

/-- The pattern characters of the `metabsls` table, in table order:
s S d D w W R b B. -/
def metabslChars : List Nat := [115, 83, 100, 68, 119, 87, 82, 98, 66]

/-- Dispatch on a `metabsls` table index, in table order. -/
def metabslValidator : Nat → List Nat → Nat → Option Nat
  | 0 => matchwhitespace
  | 1 => matchnotwhitespace
  | 2 => matchdigit
  | 3 => matchnotdigit
  | 4 => matchwordchar
  | 5 => matchnotwordchar
  | 6 => matchnewline
  | 7 => matchwordboundary
  | 8 => matchnotwordboundary
  | _ => fun _ _ => none

/-- The pattern characters of the `metachars` table, in table order: ^ $ . -/
def metacharChars : List Nat := [94, 36, 46]

/-- Dispatch on a `metachars` table index, in table order. -/
def metacharValidator : Nat → List Nat → Nat → Option Nat
  | 0 => matchstart
  | 1 => matchend
  | 2 => matchany
  | _ => fun _ _ => none

/-- A position whose byte is not the NUL terminator lies inside the list. -/
theorem cAt_lt_length {p : List Nat} {i : Nat} (h : cAt p i ≠ 0) : i < p.length := by
  by_contra hge
  apply h
  unfold cAt
  exact List.getD_eq_default p 0 (Nat.le_of_not_lt hge)

/-! ### Compiler -/

/-- re.c `compileoneclc`: compile one class character from the pattern suffix,
returning the class char and the number of pattern bytes eaten. -/
def compileoneclc (p : List Nat) : Except RErr (ClassChar × Nat) :=
  if cAt p 0 == 92 then
    if cAt p 1 == 0 then .error .einval
    else
      match metabslChars.findIdx? (· == cAt p 1) with
      | some idx => .ok (⟨.metabsl, idx, 0, 0⟩, 2)
      | none => .ok (⟨.charrange, 0, cAt p 1, 0⟩, 2)
  else if cAt p 0 == 0 || cAt p 0 == 93 then
    .ok (⟨.nullterm, 0, 0, 0⟩, 1)
  else
    .ok (⟨.charrange, 0, cAt p 0, 0⟩, 1)

/-- re.c `compilerange`: after a class char, parse an optional `-…` range,
updating the class char's `last` endpoint and returning the bytes eaten. -/
def compilerange (clc : ClassChar) (p : List Nat) : Except RErr (ClassChar × Nat) :=
  if cAt p 0 ≠ 45 then
    if clc.type = .charrange then .ok ({clc with last := clc.first}, 0)
    else .ok (clc, 0)
  else if clc.type ≠ .charrange then .error .einval
  else if cAt p 1 == 92 then
    if cAt p 2 == 0 then .error .einval
    else
      match metabslChars.findIdx? (· == cAt p 2) with
      | some _ => .error .einval
      | none => .ok ({clc with last := cAt p 2}, 4)
  else if cAt p 1 == 93 then .ok ({clc with last := clc.first}, 0)
  else if cAt p 1 == 0 then .error .einval
  else .ok ({clc with last := cAt p 1}, 2)

/-- Outcome of the first (`min`) loop inside re.c `compilequantifier`. -/
inductive QMinOut where
  | qdone (mn mx eaten : Nat)
  | qtomax (mn i : Nat)
  | qbad
  | qnul (mn : Nat)
deriving DecidableEq, Repr

/-- The `min` loop of re.c `compilequantifier` (`for (i = 1; pattern[i]; ++i)`),
accumulating the low bound mod 256. The first argument is an iteration bound:
each round advances `i` by at least 1, so a bound of `p.length + 1` is never
exhausted before `pattern[i]` reads the NUL terminator, and the bound-zero
case coincides with the loop's NUL exit. -/
def cqMinLoop (p : List Nat) : Nat → Nat → Nat → QMinOut
  | 0, _, mn => .qnul mn
  | n + 1, i, mn =>
    if cAt p i ≠ 0 then
      if isdigitB (cAt p i) then
        cqMinLoop p n (i+1) ((mn * 10 + (cAt p i - 48)) % 256)
      else if cAt p i == 44 then
        if cAt p (i+1) == 125 then .qdone mn 255 (i+2) else .qtomax mn (i+1)
      else if cAt p i == 125 then .qdone mn mn (i+1)
      else .qbad
    else .qnul mn

/-- Outcome of the second (`max`) loop inside re.c `compilequantifier`. -/
inductive QMaxOut where
  | mdone (mx eaten : Nat)
  | mbad
  | mnul (mx : Nat)
deriving DecidableEq, Repr

/-- The `max` loop of re.c `compilequantifier`, accumulating the high bound
mod 256; the iteration bound plays the same role as in `cqMinLoop`. -/
def cqMaxLoop (p : List Nat) : Nat → Nat → Nat → QMaxOut
  | 0, _, mx => .mnul mx
  | n + 1, i, mx =>
    if cAt p i ≠ 0 then
      if isdigitB (cAt p i) then
        cqMaxLoop p n (i+1) ((mx * 10 + (cAt p i - 48)) % 256)
      else if cAt p i == 125 then .mdone mx (i+1)
      else .mbad
    else .mnul mx

/-- re.c `compilequantifier`: parse `? * + {m} {m,} {m,n}` after an atom.
On a malformed interior byte the bounds are reset to the default 1,1 and
nothing is consumed; when the pattern ends inside the braces nothing is
consumed but the partially accumulated bounds are left in place (this mirrors
the source exactly: only the invalid-byte branches restore the default). -/
def compilequantifier (t : Token) (p : List Nat) : Token × Nat :=
  if cAt p 0 == 63 then ({t with quantifiermin := 0, quantifiermax := 1}, 1)
  else if cAt p 0 == 42 then ({t with quantifiermin := 0, quantifiermax := 255}, 1)
  else if cAt p 0 == 43 then ({t with quantifiermin := 1, quantifiermax := 255}, 1)
  else if cAt p 0 ≠ 123 then ({t with quantifiermin := 1, quantifiermax := 1}, 0)
  else
    match cqMinLoop p (p.length + 1) 1 0 with
    | .qdone mn mx eaten => ({t with quantifiermin := mn, quantifiermax := mx}, eaten)
    | .qbad => ({t with quantifiermin := 1, quantifiermax := 1}, 0)
    | .qnul mn => ({t with quantifiermin := mn, quantifiermax := 0}, 0)
    | .qtomax mn j =>
      match cqMaxLoop p (p.length + 1) j 0 with
      | .mdone mx eaten => ({t with quantifiermin := mn, quantifiermax := mx}, eaten)
      | .mbad => ({t with quantifiermin := 1, quantifiermax := 1}, 0)
      | .mnul mx => ({t with quantifiermin := mn, quantifiermax := mx}, 0)

/-- Every class character that `compileoneclc` accepts eats at least one
pattern byte. -/
theorem compileoneclc_pos {p : List Nat} {clc : ClassChar} {e : Nat}
    (h : compileoneclc p = .ok (clc, e)) : 1 ≤ e := by
  unfold compileoneclc at h
  repeat' split at h
  all_goals simp_all
  all_goals omega

/-- Access into a dropped list reads the original at the shifted index. -/
theorem cAt_drop (p : List Nat) (n m : Nat) : cAt (p.drop n) m = cAt p (n + m) := by
  simp [cAt, List.getD, List.getElem?_drop]

/-- The class-scanning loop of re.c `compileone`'s `[` branch
(`while (pattern[i] && pattern[i] != ']')`): on success, returns the index of
the closing `]` together with the grown class buffer (the `CCL_NULLTERM`
sentinel appended). The first argument is an iteration bound: each round
advances `i` by at least 1 (`compileoneclc_pos`), so a bound of
`p.length + 1` is never exhausted before `pattern[i]` reads the NUL
terminator, and the bound-zero case coincides with the loop's
unclosed-class exit. -/
def compileClassChars (cbl : Nat) (p : List Nat) :
    Nat → Nat → List ClassChar → Except RErr (Nat × List ClassChar)
  | 0, _, _ => .error .einval
  | n + 1, i, buf =>
    if cAt p i ≠ 0 ∧ cAt p i ≠ 93 then
      if cbl ≤ buf.length then .error .enobufs
      else
        match compileoneclc (p.drop i) with
        | .error e => .error e
        | .ok (clc, e1) =>
          match compilerange clc (p.drop (i + e1)) with
          | .error e => .error e
          | .ok (clc2, e2) => compileClassChars cbl p n (i + e1 + e2) (buf ++ [clc2])
    else if cAt p i == 0 then .error .einval
    else if cbl ≤ buf.length then .error .enobufs
    else .ok (i, buf ++ [⟨.nullterm, 0, 0, 0⟩])

/-- re.c `compileone`: compile one token from the pattern suffix, returning
the token, the number of pattern bytes eaten, and the grown class buffer. -/
def compileone (cbl : Nat) (p : List Nat) (buf : List ClassChar) :
    Except RErr (Token × Nat × List ClassChar) :=
  if cAt p 0 == 92 then
    if cAt p 1 == 0 then .error .einval
    else
      match metabslChars.findIdx? (· == cAt p 1) with
      | some idx => .ok (⟨.metabsl, idx, 0, 0, 1, 1, true, false⟩, 2, buf)
      | none => .ok (⟨.char, 0, cAt p 1, 0, 1, 1, true, false⟩, 2, buf)
  else if cAt p 0 == 91 then
    match compileClassChars cbl p (p.length + 1) (if cAt p 1 == 94 then 2 else 1) buf with
    | .error e => .error e
    | .ok (iexit, buf2) =>
      .ok (⟨if cAt p 1 == 94 then .invcharclass else .charclass,
            0, 0, buf.length, 1, 1, true, false⟩, iexit + 1, buf2)
  else if cAt p 0 == 0 then
    .ok (tokenEnd, 0, buf)
  else
    match metacharChars.findIdx? (· == cAt p 0) with
    | some idx => .ok (⟨.metachar, idx, 0, 0, 1, 1, true, false⟩, 1, buf)
    | none => .ok (⟨.char, 0, cAt p 0, 0, 1, 1, true, false⟩, 1, buf)

/-- When the pattern suffix is not exhausted, every token `compileone`
accepts eats at least one pattern byte. -/
theorem compileone_pos {cbl : Nat} {p : List Nat} {buf : List ClassChar}
    {t : Token} {e : Nat} {buf2 : List ClassChar}
    (h0 : cAt p 0 ≠ 0) (h : compileone cbl p buf = .ok (t, e, buf2)) : 1 ≤ e := by
  unfold compileone at h
  repeat' split at h
  all_goals simp_all
  all_goals omega

/-- re.c `compilegreedy`: a `?` after the quantifier clears the greedy flag. -/
def compilegreedy (t : Token) (p : List Nat) : Token × Nat :=
  if cAt p 0 == 63 then ({t with greedy := false}, 1)
  else ({t with greedy := true}, 0)

/-- re.c `compileatomic`: a `+` after the (optional) laziness marker sets the
atomic flag. -/
def compileatomic (t : Token) (p : List Nat) : Token × Nat :=
  if cAt p 0 == 43 then ({t with atomic := true}, 1)
  else ({t with atomic := false}, 0)

/-- The token-slot loop of re.c `re_compile` (`while (pattern[pi] && ri <
MAXTOKENS)`): each iteration compiles one atom, its quantifier, laziness and
atomic markers; after the loop, having reached `ri = MAXTOKENS` is ENOBUFS,
else the END token is appended. The first argument is an iteration bound:
each round advances `pi` by at least 1 (`compileone_pos`), so a bound of
`p.length + 1` is never exhausted before `pattern[pi]` reads the NUL
terminator, and the bound-zero case coincides with the loop's exit. -/
def re_compileLoop (mt cbl : Nat) (p : List Nat) :
    Nat → Nat → Nat → List ClassChar → Except RErr (List Token × List ClassChar)
  | 0, _, ri, buf =>
    if ri = mt then .error .enobufs
    else .ok ([tokenEnd], buf)
  | n + 1, pi, ri, buf =>
    if cAt p pi ≠ 0 ∧ ri < mt then
      match compileone cbl (p.drop pi) buf with
      | .error e => .error e
      | .ok (t1, e1, buf1) =>
        let q := compilequantifier t1 (p.drop (pi + e1))
        let g := compilegreedy q.1 (p.drop (pi + e1 + q.2))
        let a := compileatomic g.1 (p.drop (pi + e1 + q.2 + g.2))
        match re_compileLoop mt cbl p n (pi + e1 + q.2 + g.2 + a.2) (ri + 1) buf1 with
        | .error e => .error e
        | .ok (ts, buf2) => .ok (a.1 :: ts, buf2)
    else if ri = mt then .error .enobufs
    else .ok ([tokenEnd], buf)

/-- re.c `re_compile`, parameterized by the re.h constants MAXTOKENS (`mt`)
and CCLBUFLEN (`cbl`). -/
def re_compile (mt cbl : Nat) (p : List Nat) : Except RErr Regex :=
  match re_compileLoop mt cbl p (p.length + 1) 0 0 [] with
  | .error e => .error e
  | .ok (ts, buf) => .ok ⟨ts, buf⟩

/-! ### Matcher

Match functions mirror re.c's errno protocol: they receive the incoming
errno flag and return `(chars eaten, errno flag on return)`. -/

/-- re.c `matchoneclc`: match one class character; `some 1` on success (the
function always reports 1 regardless of what the predicate consumed), `none`
when it set errno. -/
def matchoneclc (clc : ClassChar) (t : List Nat) (i : Nat) : Option Nat :=
  match clc.type with
  | .metabsl =>
    match metabslValidator clc.meta t i with
    | some _ => some 1
    | none => none
  | .charrange =>
    if cAt t i < clc.first ∨ clc.last < cAt t i then none else some 1
  | .nullterm => none

/-- The scanning loop shared by the CHARCLASS and INVCHARCLASS branches of
re.c `matchone`: walk the class characters until the `CCL_NULLTERM` sentinel,
reporting whether any of them matched at position `i`. A list that ends
without a sentinel behaves like one that stops there (the C code would read
past the buffer; compiled programs always carry the sentinel). -/
def classMatches : List ClassChar → List Nat → Nat → Bool
  | [], _, _ => false
  | clc :: rest, t, i =>
    if clc.type = .nullterm then false
    else
      match matchoneclc clc t i with
      | some _ => true
      | none => classMatches rest t i

/-- re.c `matchone`: match one token ignoring quantifiers, given the class
buffer the token's `ccl` field points into. Returns chars eaten and the
errno flag, which for a successful literal is merely preserved (the C code
does not clear errno on that path; its caller always clears it first). -/
def matchone (tok : Token) (buf : List ClassChar) (t : List Nat) (i : Nat)
    (errnoIn : Bool) : Nat × Bool :=
  match tok.type with
  | .metabsl =>
    match metabslValidator tok.meta t i with
    | some n => (n, false)
    | none => (0, true)
  | .metachar =>
    match metacharValidator tok.meta t i with
    | some n => (n, false)
    | none => (0, true)
  | .charclass =>
    if classMatches (buf.drop tok.ccl) t i then (1, false) else (0, true)
  | .invcharclass =>
    if classMatches (buf.drop tok.ccl) t i then (0, true) else (1, false)
  | .char =>
    if tok.ch ≠ cAt t i then (0, true) else (1, errnoIn)
  | .nullterm => (0, true)

/-- re.c `matchcount`: try to match `count` repetitions of one token starting
at `i`. Returns `(chars eaten, repetitions matched, errno flag)`: on an early
repetition failure the matched count is the number of successful repetitions
and errno is set; if all repetitions match, errno is clear when `count > 0`
and merely preserved when `count = 0` (the loop body never ran). -/
def matchcount (tok : Token) (buf : List ClassChar) :
    Nat → List Nat → Nat → Bool → Nat × Nat × Bool
  | 0, _, _, errnoIn => (0, 0, errnoIn)
  | c + 1, t, i, _ =>
    let r := matchone tok buf t i false
    if r.2 then (0, 0, true)
    else
      let rest := matchcount tok buf c t (i + r.1) false
      (r.1 + rest.1, rest.2.1 + 1, rest.2.2)

mutual

/-- re.c `matchpattern` with explicit fuel: `none` means the fuel ran out
before the C recursion would have returned; `some (ret, errno)` is the C
return value (which, mirroring the source, is 0 — not the chars eaten —
whenever the token list is exhausted inside the iterative phase) and the
errno flag on return. -/
def matchpattern : Nat → List Token → List ClassChar → List Nat → Nat → Bool →
    Option (Nat × Bool)
  | 0, _, _, _, _, _ => none
  | fuel + 1, p, buf, t, i, errnoIn =>
    if (p.headD tokenEnd).type = .nullterm then some (0, errnoIn)
    else matchpatternLoop fuel p buf t i i errnoIn
termination_by structural fuel _ _ _ _ _ => fuel

/-- The iterative phase of re.c `matchpattern` (`for (;;)` consuming
fixed-count or atomic tokens), carrying `starti` for the final
`return i - starti`. Hitting the END token here returns 0, exactly as the
source does. -/
def matchpatternLoop : Nat → List Token → List ClassChar → List Nat → Nat → Nat →
    Bool → Option (Nat × Bool)
  | 0, _, _, _, _, _, _ => none
  | fuel + 1, p, buf, t, starti, i, errno =>
    let tok := p.headD tokenEnd
    if tok.type = .nullterm then some (0, errno)
    else if tok.quantifiermin ≠ tok.quantifiermax ∧ tok.atomic = false then
      matchpatternRec fuel tok p.tail buf t starti i
        (if tok.greedy then tok.quantifiermax else tok.quantifiermin) errno
    else
      let r := matchcount tok buf
        (if tok.greedy then tok.quantifiermax else tok.quantifiermin) t i errno
      if r.2.1 < tok.quantifiermin then some (0, r.2.2)
      else matchpatternLoop fuel p.tail buf t starti (i + r.1) r.2.2
termination_by structural fuel _ _ _ _ _ _ => fuel

/-- The backtracking phase of re.c `matchpattern`: the first
variable-count, non-atomic token is retried with a repetition count moving
from one bound toward the other (the count is the one `matchcount` wrote
back), recursing into `matchpattern` for the rest of the program. -/
def matchpatternRec : Nat → Token → List Token → List ClassChar → List Nat →
    Nat → Nat → Nat → Bool → Option (Nat × Bool)
  | 0, _, _, _, _, _, _, _, _ => none
  | fuel + 1, tok, rest, buf, t, starti, oldi, count, errno =>
    let r := matchcount tok buf count t oldi errno
    if r.2.1 < tok.quantifiermin then some (0, r.2.2)
    else
      match matchpattern fuel rest buf t (oldi + r.1) false with
      | none => none
      | some (ret, err2) =>
        if err2 = false then some (oldi + r.1 + ret - starti, false)
        else if tok.greedy then
          if r.2.1 ≤ tok.quantifiermin then some (0, err2)
          else matchpatternRec fuel tok rest buf t starti oldi (r.2.1 - 1) err2
        else
          if tok.quantifiermax ≤ r.2.1 then some (0, err2)
          else matchpatternRec fuel tok rest buf t starti oldi (r.2.1 + 1) err2
termination_by structural fuel _ _ _ _ _ _ _ _ => fuel

end

/-- The search loop of re.c `re_rmatch` (`for (i = 0; text[i]; ++i)`).
Returns `(return value, errno flag, the length written through the out
pointer — none when it was never written)`; `none` as a whole means the
matcher ran out of fuel. The first plain-Nat argument after the text is an
iteration bound: each round advances `i` by 1, so a bound of `t.length + 1`
is never exhausted before `text[i]` reads the NUL terminator, and the
bound-zero case coincides with the loop's no-match exit. -/
def re_rmatchLoop (fuel : Nat) (r : Regex) (t : List Nat) :
    Nat → Nat → Bool → Option (Nat × Bool × Option Nat)
  | 0, _, errno => some (0, errno, none)
  | n + 1, i, errno =>
    if cAt t i ≠ 0 then
      match matchpattern fuel r.tokens r.cclbuf t i false with
      | none => none
      | some (lb, err) =>
        if err = false then some (i, false, some lb)
        else re_rmatchLoop fuel r t n (i + 1) err
    else some (0, errno, none)

/-- re.c `re_rmatch`: first match of a compiled regex over a text. -/
def re_rmatch (fuel : Nat) (r : Regex) (t : List Nat) (errnoIn : Bool) :
    Option (Nat × Bool × Option Nat) :=
  re_rmatchLoop fuel r t (t.length + 1) 0 errnoIn

/-- The counting loop of re.c `re_rmatchg` (`while (text[i])`): each round
searches the text suffix, then advances by the returned offset plus the
length variable (which starts at 0 and is only written on success) — with no
lower bound of 1 on the step. The fuel bounds the number of rounds and feeds
the matcher; `none` means it ran out. -/
def re_rmatchgLoop : Nat → Regex → List Nat → Nat → Nat → Option Nat
  | 0, _, _, _, _ => none
  | fuel + 1, r, t, i, c =>
    if cAt t i ≠ 0 then
      match re_rmatch fuel r (t.drop i) false with
      | none => none
      | some (off, err, wr) =>
        if err then some c
        else re_rmatchgLoop fuel r t (i + off + wr.getD 0) (c + 1)
    else some c

/-- re.c `re_rmatchg`: count all (non-overlapping) matches of a compiled
regex over a text. -/
def re_rmatchg (fuel : Nat) (r : Regex) (t : List Nat) : Option Nat :=
  re_rmatchgLoop fuel r t 0 0

/-- re.c `re_smatch`: compile then search. A compile error returns 0 with
errno set and the length slot untouched. -/
def re_smatch (fuel mt cbl : Nat) (p t : List Nat) : Option (Nat × Bool × Option Nat) :=
  match re_compile mt cbl p with
  | .error _ => some (0, true, none)
  | .ok r => re_rmatch fuel r t false

/-- re.c `re_smatchg`: compile then count all matches; a compile error
returns 0 with errno set. -/
def re_smatchg (fuel mt cbl : Nat) (p t : List Nat) : Option Nat :=
  match re_compile mt cbl p with
  | .error _ => some 0
  | .ok r => re_rmatchg fuel r t

/-! ### Concrete compiled programs used by the claims

Each is the result of `re_compile` on the named pattern (proved inside the
claims' theorems). Bytes: a=97 b=98 z=122 0=48 3=51 9=57 and
`[`=91 `]`=93 `^`=94 `$`=36 `*`=42 `+`=43 `?`=63 `\`=92 `-`=45
`{`=123 `}`=125 `,`=44. -/

/-- The literal token for the byte `a` with the default quantifier. -/
def tok97 : Token := ⟨.char, 0, 97, 0, 1, 1, true, false⟩

/-- The program compiled from `a*`. -/
def rStar : Regex := ⟨[⟨.char, 0, 97, 0, 0, 255, true, false⟩, tokenEnd], []⟩

/-- The program compiled from `a++a` (possessive `a+`, then literal `a`). -/
def rPoss : Regex :=
  ⟨[⟨.char, 0, 97, 0, 1, 255, true, true⟩, tok97, tokenEnd], []⟩

/-- The program compiled from `^$`. -/
def rHat : Regex :=
  ⟨[⟨.metachar, 0, 0, 0, 1, 1, true, false⟩,
    ⟨.metachar, 1, 0, 0, 1, 1, true, false⟩, tokenEnd], []⟩

/-- The program compiled from `a{2,1}` (reversed bounds, greedy). -/
def rG : Regex := ⟨[⟨.char, 0, 97, 0, 2, 1, true, false⟩, tokenEnd], []⟩

/-- The program compiled from `a{2,1}?` (reversed bounds, lazy). -/
def rL : Regex := ⟨[⟨.char, 0, 97, 0, 2, 1, false, false⟩, tokenEnd], []⟩

/-- The program compiled from `[^a]`. -/
def rInv : Regex :=
  ⟨[⟨.invcharclass, 0, 0, 0, 1, 1, true, false⟩, tokenEnd],
   [⟨.charrange, 0, 97, 97⟩, ⟨.nullterm, 0, 0, 0⟩]⟩

/-- The program compiled from `[z-a]` (a reversed range). -/
def rRev : Regex :=
  ⟨[⟨.charclass, 0, 0, 0, 1, 1, true, false⟩, tokenEnd],
   [⟨.charrange, 0, 122, 97⟩, ⟨.nullterm, 0, 0, 0⟩]⟩

/-- The program compiled from `b`. -/
def rLitB : Regex := ⟨[⟨.char, 0, 98, 0, 1, 1, true, false⟩, tokenEnd], []⟩

/-! ### Claims -/

/-- On the text `"b"`, matching `a*` at position 0 succeeds with length 0
once the fuel suffices (four frames: top, iterative phase, backtracking
phase, and the recursive call on the END token). -/
theorem c1_mp_eval (f : Nat) :
    matchpattern (f + 4) rStar.tokens rStar.cclbuf [98] 0 false = some (0, false) := rfl

/-- For every fuel, matching `a*` on `"b"` at position 0 either runs out of
fuel or succeeds with length 0. -/
theorem c1_mp_class (f : Nat) :
    matchpattern f rStar.tokens rStar.cclbuf [98] 0 false = none ∨
    matchpattern f rStar.tokens rStar.cclbuf [98] 0 false = some (0, false) :=
  match f with
  | 0 => Or.inl rfl
  | 1 => Or.inl rfl
  | 2 => Or.inl rfl
  | 3 => Or.inl rfl
  | g + 4 => Or.inr (c1_mp_eval g)

/-- For every fuel, `re_rmatch` of `a*` over `"b"` either runs out of fuel
or succeeds at offset 0 writing length 0. -/
theorem c1_rmatch_class (f : Nat) :
    re_rmatch f rStar [98] false = none ∨
    re_rmatch f rStar [98] false = some (0, false, some 0) := by
  rcases c1_mp_class f with h | h
  · exact Or.inl (by simp [re_rmatch, re_rmatchLoop, cAt, h])
  · exact Or.inr (by simp [re_rmatch, re_rmatchLoop, cAt, h])

/-- The counting loop of `re_rmatchg` on `a*` over `"b"` never advances
(offset 0 plus length 0), so it exhausts any amount of fuel. -/
theorem c1_gloop (f : Nat) : ∀ c, re_rmatchgLoop f rStar [98] 0 c = none := by
  induction f with
  | zero => exact fun c => rfl
  | succ g ih =>
    intro c
    rcases c1_rmatch_class g with h | h <;>
      simp [re_rmatchgLoop, cAt, List.drop, h, ih]

/-- C1: `re_rmatchg` advances by offset plus length with no `max(length, 1)`
floor: on the compiled `a*` over the text `"b"` every round matches 0 bytes
at offset 0, the position never advances, and the loop never terminates —
modelled by exhausting every fuel. -/
theorem c1_matchall_no_progress :
    re_compile 30 40 [97, 42] = .ok rStar ∧
    ∀ fuel, re_rmatchg fuel rStar [98] = none :=
  ⟨rfl, fun fuel => c1_gloop fuel 0⟩

/-- C2, counterexample: the claim says an inverted class such as `[^a]`
fails at end-of-input, but `matchone` on the compiled `[^a]` token at the
end of the empty text succeeds, consuming 1 byte (the terminator): the code
has no NUL check in its INVCHARCLASS branch. -/
theorem c2_invclass_eoi_counterexample :
    re_compile 30 40 [91, 94, 97, 93] = .ok rInv ∧
    matchone (rInv.tokens.headD tokenEnd) rInv.cclbuf [] 0 false = (1, false) :=
  ⟨rfl, rfl⟩

/-- The class-scanning loop reports no match exactly when every class char
before the sentinel fails. -/
theorem classMatches_false_iff (l : List ClassChar) (t : List Nat) (i : Nat) :
    classMatches l t i = false ↔
      ∀ clc ∈ l.takeWhile (fun c => c.type != CclType.nullterm),
        matchoneclc clc t i = none := by
  induction l with
  | nil => simp [classMatches]
  | cons clc rest ih =>
    by_cases hn : clc.type = CclType.nullterm
    · simp [classMatches, hn, List.takeWhile_cons]
    · cases hm : matchoneclc clc t i with
      | some n => simp [classMatches, hn, hm, List.takeWhile_cons]
      | none => simp [classMatches, hn, hm, List.takeWhile_cons, ih]

/-- C2, amended: matching a compiled inverted-class token succeeds, consuming
exactly 1 byte, if and only if no class char of the class matches at
position `i` — with no condition on `text[i]` being the NUL terminator, so
an inverted class can succeed at end-of-input by consuming the terminator. -/
theorem c2_invclass_match_iff (tok : Token) (buf : List ClassChar) (t : List Nat)
    (i : Nat) (e : Bool) (h : tok.type = TokenType.invcharclass) :
    matchone tok buf t i e = (1, false) ↔
      ∀ clc ∈ (buf.drop tok.ccl).takeWhile (fun c => c.type != CclType.nullterm),
        matchoneclc clc t i = none := by
  rw [← classMatches_false_iff]
  unfold matchone
  rw [h]
  cases hcm : classMatches (buf.drop tok.ccl) t i <;> simp [hcm]

/-- C2, witness: the amended theorem applied to the compiled `[^a]` token at
the end of the empty text. -/
theorem c2_invclass_match_iff_witness :
    (rInv.tokens.headD tokenEnd).type = TokenType.invcharclass ∧
    (matchone (rInv.tokens.headD tokenEnd) rInv.cclbuf [] 0 false = (1, false) ↔
      ∀ clc ∈ ((rInv.cclbuf.drop (rInv.tokens.headD tokenEnd).ccl).takeWhile
        (fun c => c.type != CclType.nullterm)), matchoneclc clc [] 0 = none) :=
  ⟨rfl, c2_invclass_match_iff (rInv.tokens.headD tokenEnd) rInv.cclbuf [] 0 false rfl⟩

/-- C3: the claim says the `-\x` range path consumes 3 bytes so that class
parsing resumes right after `x`; the code consumes 4. On `[0-\9]`,
`compilerange` eats the dash, the backslash, the `9` AND the closing `]`,
so `re_compile` reports INVALID_PATTERN (unclosed class) where the claim
implies the pattern compiles. -/
theorem c3_range_escape_eats_four :
    compilerange ⟨.charrange, 0, 48, 0⟩ [45, 92, 57, 93] = .ok (⟨.charrange, 0, 48, 57⟩, 4) ∧
    re_compile 30 40 [91, 48, 45, 92, 57, 93] = .error .einval :=
  ⟨rfl, rfl⟩

/-- C4: on `a{3` (pattern exhausted inside the braces) `compilequantifier`
consumes 0 bytes but leaves the partially parsed bounds `qmin = 3, qmax = 0`
instead of restoring the default `1,1`; the whole pattern still compiles,
yielding a token with `qmin > qmax`. -/
theorem c4_unclosed_brace_leaks_bounds :
    compilequantifier tok97 [123, 51] = ({tok97 with quantifiermin := 3, quantifiermax := 0}, 0) ∧
    re_compile 30 40 [97, 123, 51] =
      .ok ⟨[⟨.char, 0, 97, 0, 3, 0, true, false⟩,
            ⟨.char, 0, 123, 0, 1, 1, true, false⟩,
            ⟨.char, 0, 51, 0, 1, 1, true, false⟩, tokenEnd], []⟩ :=
  ⟨rfl, rfl⟩

/-- C5: `matchpattern` on the compiled `^$` does succeed on the empty text at
position 0 with length 0, but `re_rmatch`'s search loop (`for (i = 0;
text[i]; ++i)`) never tries position 0 on the empty text: it returns 0 with
the errno flag merely preserved and without ever writing the length. -/
theorem c5_empty_text_never_searched :
    re_compile 30 40 [94, 36] = .ok rHat ∧
    matchpattern 10 rHat.tokens rHat.cclbuf [] 0 false = some (0, false) ∧
    re_rmatch 10 rHat [] false = some (0, false, none) :=
  ⟨rfl, rfl, rfl⟩

/-- Byte access into a replicated byte list. -/
theorem cAt_replicate (n a i : Nat) :
    cAt (List.replicate n a) i = if i < n then a else 0 := by
  induction n generalizing i with
  | zero => simp [cAt]
  | succ n ih =>
    cases i with
    | zero => simp [cAt, List.replicate_succ]
    | succ i =>
      rw [List.replicate_succ,
        show cAt (a :: List.replicate n a) (i + 1) = cAt (List.replicate n a) i from rfl, ih]
      simp [Nat.succ_lt_succ_iff]

/-- Running `compileone` on a pattern suffix whose head is the byte `a` yields the
default literal token, eating 1 byte. -/
theorem c6_compileone_a (cbl : Nat) (buf : List ClassChar) (p : List Nat)
    (h : cAt p 0 = 97) : compileone cbl p buf = .ok (tok97, 1, buf) := by
  unfold compileone
  rw [h]
  rfl

/-- Running `compilequantifier` on a suffix starting with `a` or with the NUL
terminator finds no quantifier: default bounds, nothing eaten. -/
theorem c6_cq_default (t : Token) (p : List Nat)
    (h : cAt p 0 = 97 ∨ cAt p 0 = 0) :
    compilequantifier t p = ({t with quantifiermin := 1, quantifiermax := 1}, 0) := by
  rcases h with h | h <;> (unfold compilequantifier; rw [h]; rfl)

/-- Running `compilegreedy` on a suffix starting with `a` or with the NUL terminator:
greedy by default, nothing eaten. -/
theorem c6_greedy_default (t : Token) (p : List Nat)
    (h : cAt p 0 = 97 ∨ cAt p 0 = 0) :
    compilegreedy t p = ({t with greedy := true}, 0) := by
  rcases h with h | h <;> (unfold compilegreedy; rw [h]; rfl)

/-- Running `compileatomic` on a suffix starting with `a` or with the NUL terminator:
not atomic by default, nothing eaten. -/
theorem c6_atomic_default (t : Token) (p : List Nat)
    (h : cAt p 0 = 97 ∨ cAt p 0 = 0) :
    compileatomic t p = ({t with atomic := false}, 0) := by
  rcases h with h | h <;> (unfold compileatomic; rw [h]; rfl)

/-- The token-slot loop on a run of `d` literal `a`s starting at `pi`:
it compiles one default literal token per byte and fails with ENOBUFS
exactly when the slot index would reach `mt`. -/
theorem c6_loop (mt cbl : Nat) : ∀ d n pi ri buf, ri ≤ mt → d < n →
    re_compileLoop mt cbl (List.replicate (pi + d) 97) n pi ri buf =
      if mt ≤ ri + d then .error .enobufs
      else .ok (List.replicate d tok97 ++ [tokenEnd], buf) := by
  intro d
  induction d with
  | zero =>
    intro n pi ri buf hri hn
    obtain ⟨m, rfl⟩ : ∃ m, n = m + 1 := ⟨n - 1, by omega⟩
    have hz : cAt (List.replicate (pi + 0) 97) pi = 0 := by
      rw [cAt_replicate, if_neg (by omega)]
    simp only [re_compileLoop, hz]
    by_cases hrm : ri = mt
    · simp [hrm]
    · have hle : ¬ mt ≤ ri := by omega
      simp [hrm, hle]
  | succ d ih =>
    intro n pi ri buf hri hn
    obtain ⟨m, rfl⟩ : ∃ m, n = m + 1 := ⟨n - 1, by omega⟩
    by_cases hlt : ri < mt
    · have h97 : cAt (List.replicate (pi + (d + 1)) 97) pi = 97 := by
        rw [cAt_replicate, if_pos (by omega)]
      have hguard : cAt (List.replicate (pi + (d + 1)) 97) pi ≠ 0 ∧ ri < mt :=
        ⟨by rw [h97]; decide, hlt⟩
      have hdrop1 : (List.replicate (pi + (d + 1)) 97).drop pi = List.replicate (d + 1) 97 := by
        rw [List.drop_replicate]
        congr 1
        omega
      have hdrop2 : (List.replicate (pi + (d + 1)) 97).drop (pi + 1) = List.replicate d 97 := by
        rw [List.drop_replicate]
        congr 1
        omega
      have hone : compileone cbl ((List.replicate (pi + (d + 1)) 97).drop pi) buf
          = .ok (tok97, 1, buf) := by
        rw [hdrop1]
        exact c6_compileone_a cbl buf _ (by rw [cAt_replicate]; simp)
      have hd0 : cAt (List.replicate d 97) 0 = 97 ∨ cAt (List.replicate d 97) 0 = 0 := by
        rw [cAt_replicate]
        rcases Nat.eq_zero_or_pos d with hd | hd
        · right
          simp [hd]
        · left
          rw [if_pos hd]
      have hrec : List.replicate (pi + (d + 1)) 97 = List.replicate ((pi + 1) + d) 97 := by
        congr 1
        omega
      simp only [re_compileLoop, if_pos hguard, hone, hdrop2,
        c6_cq_default _ _ hd0, c6_greedy_default _ _ hd0, c6_atomic_default _ _ hd0]
      have hih := ih m (pi + 1) (ri + 1) buf (by omega) (by omega)
      rw [hrec, show pi + 1 + 0 + 0 + 0 = pi + 1 from by omega, hih]
      by_cases hend : mt ≤ ri + (d + 1)
      · rw [if_pos (by omega : mt ≤ ri + 1 + d), if_pos hend]
      · rw [if_neg (by omega : ¬ mt ≤ ri + 1 + d), if_neg hend]
        rw [List.replicate_succ, List.cons_append]
        rfl
    · have hrieq : ri = mt := by omega
      have hguard : ¬ (cAt (List.replicate (pi + (d + 1)) 97) pi ≠ 0 ∧ ri < mt) := by
        intro hcon
        exact absurd hcon.2 hlt
      simp only [re_compileLoop, if_neg hguard]
      rw [if_pos hrieq, if_pos (by omega : mt ≤ ri + (d + 1))]

/-- C6, counterexample: with MAXTOKENS = 2, the pattern `aa` compiles to
exactly MAXTOKENS tokens and the pattern bytes are exhausted exactly as the
slot index reaches MAXTOKENS — yet `re_compile` reports PROGRAM_OVERFLOW,
refuting the claim that such a pattern compiles successfully. -/
theorem c6_exact_maxtokens_counterexample :
    re_compile 2 40 [97, 97] = .error .enobufs := rfl

/-- C6, amended: `re_compile` reports PROGRAM_OVERFLOW whenever the slot
index reaches MAX_TOKENS, even when the pattern is exhausted at exactly that
point; a pattern of `k` literal bytes compiles successfully (with an END
token appended after the `k` compiled tokens) precisely when
`k < MAX_TOKENS`. -/
theorem c6_overflow_iff_slots_reached (mt cbl k : Nat) (h : k ≤ mt) :
    re_compile mt cbl (List.replicate k 97) =
      if k = mt then .error .enobufs
      else .ok ⟨List.replicate k tok97 ++ [tokenEnd], []⟩ := by
  unfold re_compile
  have hlen : (List.replicate k 97).length = k := List.length_replicate k 97
  have hloop := c6_loop mt cbl k ((List.replicate k 97).length + 1) 0 0 [] (by omega)
    (by omega)
  rw [show (0 : Nat) + k = k from by omega] at hloop
  rw [hloop]
  by_cases hk : k = mt
  · rw [if_pos (by omega : mt ≤ k), if_pos hk]
  · rw [if_neg (by omega : ¬ mt ≤ k), if_neg hk]

/-- C6, witness: the amended theorem at MAXTOKENS = 2 on the single-token
pattern `a`, which compiles successfully. -/
theorem c6_overflow_iff_slots_reached_witness :
    re_compile 2 40 (List.replicate 1 97) =
      .ok ⟨List.replicate 1 tok97 ++ [tokenEnd], []⟩ := by
  have h := c6_overflow_iff_slots_reached 2 40 1 (by omega)
  simpa using h

/-- C7, counterexample: `[z-a]` compiles successfully and stores a RANGE
class char with `first = 122 > last = 97`, refuting the claim that
`first ≤ last` holds after every successful compilation. -/
theorem c7_reversed_range_counterexample :
    re_compile 30 40 [91, 122, 45, 97, 93] = .ok rRev ∧
    (rRev.cclbuf.headD ⟨.nullterm, 0, 0, 0⟩).type = CclType.charrange ∧
    ¬ (rRev.cclbuf.headD ⟨.nullterm, 0, 0, 0⟩).first ≤
        (rRev.cclbuf.headD ⟨.nullterm, 0, 0, 0⟩).last :=
  ⟨rfl, rfl, by decide⟩

/-- C7, amended: when no dash follows a RANGE class char, `compilerange`
consumes nothing and sets `last = first` (so `first ≤ last` holds for such
class chars); an explicit `a-b` range stores the endpoints as written and
may be reversed. -/
theorem c7_no_dash_last_eq_first (clc : ClassChar) (p : List Nat)
    (h1 : clc.type = CclType.charrange) (h2 : cAt p 0 ≠ 45) :
    compilerange clc p = .ok ({clc with last := clc.first}, 0) := by
  unfold compilerange
  rw [if_pos h2, if_pos h1]

/-- C7, witness: the amended theorem applied to the class char compiled from
`a` with the class ending right after it. -/
theorem c7_no_dash_last_eq_first_witness :
    compilerange ⟨.charrange, 0, 97, 0⟩ [93] = .ok (⟨.charrange, 0, 97, 97⟩, 0) :=
  c7_no_dash_last_eq_first ⟨.charrange, 0, 97, 0⟩ [93] rfl (by decide)

/-- C8: the atomic (possessive) `a++` commits to all repetitions it can eat:
`matchcount` consumes all four `a`s of `"aaaa"` (and reports the failed
fifth repetition through errno), after which the trailing literal `a` finds
only the terminator, so the whole search reports NO_MATCH — return 0 with
errno set and the length slot untouched. -/
theorem c8_possessive_no_match :
    re_compile 30 40 [97, 43, 43, 97] = .ok rPoss ∧
    matchcount (rPoss.tokens.headD tokenEnd) rPoss.cclbuf 255 [97, 97, 97, 97] 0 false
      = (4, 4, true) ∧
    re_rmatch 100 rPoss [97, 97, 97, 97] false = some (0, true, none) :=
  ⟨rfl, rfl, by decide⟩

/-- C9: with the reversed quantifier `{2,1}` the greedy pattern `a{2,1}` is
reported as a zero-length success on `"aa"` (the `count < qmin` failure path
returns while errno is still clear, because `matchcount` had completed every
requested repetition), while its lazy twin `a{2,1}?` matches 2 characters:
the greedy match length 0 is strictly smaller than the lazy match length 2,
contradicting the claimed greedy ≥ lazy duality. -/
theorem c9_greedy_shorter_than_lazy :
    re_compile 30 40 [97, 123, 50, 44, 49, 125] = .ok rG ∧
    re_compile 30 40 [97, 123, 50, 44, 49, 125, 63] = .ok rL ∧
    re_rmatch 50 rG [97, 97] false = some (0, false, some 0) ∧
    re_rmatch 50 rL [97, 97] false = some (0, false, some 2) :=
  ⟨rfl, rfl, by decide, by decide⟩

/-- C10: `re_rmatch` writes through its length pointer only on a match: if
every position carrying a non-NUL byte makes `matchpattern` fail (return
with errno set), the search returns 0 and the length slot is never written;
on the empty text no position is ever tried and the incoming errno is even
left unchanged. -/
theorem c10_rmatch_no_write_on_failure (fuel : Nat) (r : Regex) (t : List Nat)
    (errnoIn : Bool)
    (H : ∀ i, i < t.length → cAt t i ≠ 0 →
      (matchpattern fuel r.tokens r.cclbuf t i false).map Prod.snd = some true) :
    ∃ e, re_rmatch fuel r t errnoIn = some (0, e, none) := by
  unfold re_rmatch
  suffices h : ∀ n i errno, ∃ e, re_rmatchLoop fuel r t n i errno = some (0, e, none) from
    h (t.length + 1) 0 errnoIn
  intro n
  induction n with
  | zero => exact fun i errno => ⟨errno, rfl⟩
  | succ n ih =>
    intro i errno
    by_cases hc : cAt t i ≠ 0
    · have hi := cAt_lt_length hc
      have hm := H i hi hc
      rcases hmp : matchpattern fuel r.tokens r.cclbuf t i false with _ | ⟨lb, err⟩
      · rw [hmp] at hm
        simp at hm
      · rw [hmp] at hm
        simp at hm
        obtain ⟨e, he⟩ := ih (i + 1) true
        exact ⟨e, by simp [re_rmatchLoop, hc, hmp, hm, he]⟩
    · push_neg at hc
      exact ⟨errno, by simp [re_rmatchLoop, hc]⟩

/-- C10, witness: searching `b` (compiled) over the text `"a"`, where the
only position fails. -/
theorem c10_rmatch_no_write_on_failure_witness :
    ∃ e, re_rmatch 10 rLitB [97] false = some (0, e, none) :=
  c10_rmatch_no_write_on_failure 10 rLitB [97] false (by decide)

end TinyRegexC
